import Mathlib

/-!
Verification development for the `Wallet` class of `src/Radix/wallet.py`
(RadixLib).  The Python class drives a build → sign → finalize transaction
protocol against a remote ledger service and aggregates token balances.

Shallow embedding conventions:

* JSON-decoded responses (`.json()` results) are values of the `Json`
  inductive; Python dictionary access `d[k]` becomes `Json.get?` returning
  `Option`, and an access to a missing key (an uncaught `KeyError` in
  Python) is surfaced as `WalletErr.malformedResponse`.
* The explicit `raise` statements on envelopes carrying an `'error'` key
  (a `KeyError` at the balance and build phases, a bare `Exception` at the
  finalize phase) are surfaced as `WalletErr.remoteError` tagged with the
  phase; the payload carried mirrors what each f-string interpolates
  (the whole response for balances/build, `response['error']` for finalize).
* The external collaborators `Provider` and `Signer` are structures of pure
  functions (they are outside the repository's core, per the wallet's
  imports); every invocation of a collaborator is recorded in an ordered
  trace of `Call` values so that "X is never invoked" claims are statable.
* Python's `int(...)` applied to a JSON value is `pyInt`.
* The dict comprehension in `get_balances` is a left fold of insertions
  (`dictInsert`) starting from the empty association list, which is exactly
  Python's dict construction semantics: later bindings overwrite earlier
  ones in place, fresh keys are appended.
-/

namespace Radix

/-- A decoded JSON value, the result of `.json()` on a response. -/
inductive Json where
  | str (s : String)
  | num (n : Int)
  | arr (xs : List Json)
  | obj (fields : List (String × Json))

/-- Python `d[k]` / `'k' in d.keys()` support: field lookup on a JSON
object; `none` on a missing key or a non-object. -/
def Json.get? : Json → String → Option Json
  | .obj fields, k => fields.lookup k
  | _, _ => none

/-- Chained dictionary access `j[k1][k2]...`; `none` as soon as a key is
missing. -/
def Json.getPath : Json → List String → Option Json
  | j, [] => some j
  | j, k :: ks =>
    match j.get? k with
    | some v => Json.getPath v ks
    | none => none

/-- Accumulate a run of decimal digits; fails on a non-digit. -/
def pyDigitsAux : List Char → Nat → Option Nat
  | [], acc => some acc
  | c :: cs, acc =>
    if '0' ≤ c ∧ c ≤ '9' then pyDigitsAux cs (10 * acc + (c.toNat - '0'.toNat)) else none

/-- Python `int(s)` on a (sign plus digits) string: an optional leading
minus sign followed by decimal digits; `none` (a `ValueError`) on anything
else. -/
def pyParseInt (s : String) : Option Int :=
  match s.data with
  | [] => none
  | '-' :: cs =>
    match cs with
    | [] => none
    | _ => (pyDigitsAux cs 0).map (fun n => -(n : Int))
  | cs => (pyDigitsAux cs 0).map (fun n => (n : Int))

/-- Python `int(x)` on a decoded JSON value: identity on numbers, string
parsing on strings, failure (`ValueError`/`TypeError`) otherwise. -/
def pyInt : Json → Option Int
  | .num n => some n
  | .str s => pyParseInt s
  | _ => none

/-- The remote phase at which a failure was detected. -/
inductive Phase where
  | balances
  | build
  | finalize
  deriving DecidableEq

/-- Error outcomes of the wallet methods, mirroring the raise sites of
`wallet.py`: `remoteError` is the explicit raise on an envelope holding an
`'error'` key (the spec's `RemoteError`), tagged with the phase that raised
and carrying the payload the exception message interpolates;
`malformedResponse` is an uncaught `KeyError` (or conversion error) from
extracting a field of a success envelope (the spec's `MalformedResponse`),
carrying the missing key. -/
inductive WalletErr where
  | remoteError (phase : Phase) (payload : Json)
  | malformedResponse (phase : Phase) (key : String)

/-- A `Radix.Action`: opaque to the wallet, which passes actions through
unmodified. -/
structure Action where
  data : String
  deriving DecidableEq

/-- The provider's configured network (`Network.MAINNET` or another). -/
inductive Network where
  | mainnet
  | other
  deriving DecidableEq

/-- The external `Signer` collaborator: deterministic signing and key
reporting for an account index. -/
structure Signer where
  sign : Json → Nat → String
  public_key : Nat → String
  wallet_address : Nat → Bool → String

/-- The external `Provider` collaborator: the three remote operations, each
returning a decoded response envelope, plus the configured network.  The
argument lists mirror exactly what `wallet.py` passes at each call site. -/
structure Provider where
  network : Network
  get_balances : String → Json
  build_transaction : List Action → String → Option String → Json
  finalize_transaction : Json → String → String → Bool → Json

/-- The wallet: provider, signer and account index, set at construction
(`__init__`) and exposed read-only through properties. -/
structure Wallet where
  provider : Provider
  signer : Signer
  index : Nat

/-- One recorded invocation of an external collaborator. -/
inductive Call where
  | walletAddress (index : Nat) (mainnet : Bool)
  | getBalances (address : String)
  | buildTransaction (actions : List Action) (feePayer : String) (message : Option String)
  | sign (digest : Json) (index : Nat)
  | publicKey (index : Nat)
  | finalizeTransaction (blob : Json) (signatureDer : String)
      (publicKeyOfSigner : String) (immediateSubmit : Bool)

/-- Whether a recorded call is an invocation of the Signer's sign
operation. -/
def Call.isSign : Call → Bool
  | .sign _ _ => true
  | _ => false

/-- Whether a recorded call is an invocation of the ledger's finalize
operation. -/
def Call.isFinalize : Call → Bool
  | .finalizeTransaction _ _ _ _ => true
  | _ => false

/-- One step of Python dict construction: bind key `k` to `v`, overwriting
in place the existing binding of `k` if present, appending otherwise. -/
def dictInsert : List (String × Int) → String → Int → List (String × Int)
  | [], k, v => [(k, v)]
  | (k', v') :: rest, k, v =>
    if k' = k then (k, v) :: rest else (k', v') :: dictInsert rest k v

/-- A dict comprehension over an already-extracted entry list: fold the
entries into a dict by successive insertion, as Python does. -/
def buildDict (l : List (String × Int)) : List (String × Int) :=
  l.foldl (fun d kv => dictInsert d kv.1 kv.2) []

/-- Python `d.get(k)` / `d[k]` on the built dict: the value bound to the
first (and, on dicts, only) occurrence of the key. -/
def dictGet : List (String × Int) → String → Option Int
  | [], _ => none
  | (k', v) :: rest, k => if k' = k then some v else dictGet rest k

/-- Extraction of one element of `response['result']['tokenBalances']`:
`token_info['rri']` (a JSON string, used as the dict key) and
`int(token_info['amount'])`. -/
def parseTokenEntry (j : Json) : Option (String × Int) :=
  match j.get? "rri", (j.get? "amount").bind pyInt with
  | some (.str r), some a => some (r, a)
  | _, _ => none

/-- Elementwise extraction of the whole `tokenBalances` list; fails as soon
as one entry is missing a field or has an unconvertible amount. -/
def parseTokenList : List Json → Option (List (String × Int))
  | [] => some []
  | j :: rest =>
    match parseTokenEntry j, parseTokenList rest with
    | some p, some ps => some (p :: ps)
    | _, _ => none

/-- `Wallet.get_balances`: resolve the caller's address from the signer
(index plus a mainnet flag computed from the provider's network), fetch the
balance envelope, raise `RemoteError` if it carries an `'error'` key, and
otherwise reshape `response['result']['tokenBalances']` into a dict mapping
each RRI to its integer amount.  Returns the result together with the
ordered trace of collaborator invocations. -/
def Wallet.get_balances (w : Wallet) :
    Except WalletErr (List (String × Int)) × List Call :=
  let mainnet := decide (w.provider.network = Network.mainnet)
  let address := w.signer.wallet_address w.index mainnet
  let response := w.provider.get_balances address
  let calls := [Call.walletAddress w.index mainnet, Call.getBalances address]
  if (response.get? "error").isSome then
    (.error (.remoteError .balances response), calls)
  else
    match response.get? "result" with
    | none => (.error (.malformedResponse .balances "result"), calls)
    | some result =>
      match result.get? "tokenBalances" with
      | some (.arr entries) =>
        match parseTokenList entries with
        | some parsed => (.ok (buildDict parsed), calls)
        | none => (.error (.malformedResponse .balances "amount"), calls)
      | _ => (.error (.malformedResponse .balances "tokenBalances"), calls)

/-- `Wallet.get_balance_of_token`: call `get_balances`, then
`balances.get(token_rri)`, returning `0` when the key is absent. -/
def Wallet.get_balance_of_token (w : Wallet) (token_rri : String) :
    Except WalletErr Int × List Call :=
  match w.get_balances with
  | (.error e, calls) => (.error e, calls)
  | (.ok balances, calls) =>
    match dictGet balances token_rri with
    | none => (.ok 0, calls)
    | some balance => (.ok balance, calls)

/-- `Wallet.build_sign_and_send_transaction`: the three-phase
build → sign → finalize protocol.  Mirrors the Python body line by line:
build the transaction (note that `encrypt_message` is accepted but never
forwarded to the provider), raise on an `'error'` key, extract
`response['result']['transaction']['blob']` and `['hashOfBlobToSign']`,
sign the extracted digest with the wallet's index, finalize with the blob,
signature, public key and `immediateSubmit = True`, raise on an `'error'`
key, then return `response['result']['txID']`, falling back to
`response['result']['transaction']['txID']` if the first access raises. -/
def Wallet.build_sign_and_send_transaction (w : Wallet) (actions : List Action)
    (fee_payer : String) (message : Option String) (encrypt_message : Bool) :
    Except WalletErr Json × List Call :=
  let response := w.provider.build_transaction actions fee_payer message
  let calls0 := [Call.buildTransaction actions fee_payer message]
  if (response.get? "error").isSome then
    (.error (.remoteError .build response), calls0)
  else
    match response.get? "result" with
    | none => (.error (.malformedResponse .build "result"), calls0)
    | some result =>
      match result.get? "transaction" with
      | none => (.error (.malformedResponse .build "transaction"), calls0)
      | some txn =>
        match txn.get? "blob" with
        | none => (.error (.malformedResponse .build "blob"), calls0)
        | some blob =>
          match txn.get? "hashOfBlobToSign" with
          | none => (.error (.malformedResponse .build "hashOfBlobToSign"), calls0)
          | some hashOfBlobToSign =>
            let signed_data := w.signer.sign hashOfBlobToSign w.index
            let pk := w.signer.public_key w.index
            let fresponse := w.provider.finalize_transaction blob signed_data pk true
            let calls1 := calls0 ++
              [Call.sign hashOfBlobToSign w.index, Call.publicKey w.index,
               Call.finalizeTransaction blob signed_data pk true]
            match fresponse.get? "error" with
            | some errPayload => (.error (.remoteError .finalize errPayload), calls1)
            | none =>
              match fresponse.get? "result" with
              | none => (.error (.malformedResponse .finalize "result"), calls1)
              | some fresult =>
                match fresult.get? "txID" with
                | some txID => (.ok txID, calls1)
                | none =>
                  match fresult.get? "transaction" with
                  | none => (.error (.malformedResponse .finalize "transaction"), calls1)
                  | some ftxn =>
                    match ftxn.get? "txID" with
                    | none => (.error (.malformedResponse .finalize "txID"), calls1)
                    | some txID => (.ok txID, calls1)

/-- State-passing form of `get_balances`: the Python method body contains no
assignment to `self.__provider`, `self.__signer` or `self.__index`, so the
receiver's fields at method exit are exactly those at entry. -/
def Wallet.get_balances_st (w : Wallet) :
    (Except WalletErr (List (String × Int)) × List Call) × Wallet :=
  (w.get_balances, { provider := w.provider, signer := w.signer, index := w.index })

/-- State-passing form of `get_balance_of_token` (no field assignment in
the method body). -/
def Wallet.get_balance_of_token_st (w : Wallet) (token_rri : String) :
    (Except WalletErr Int × List Call) × Wallet :=
  (w.get_balance_of_token token_rri,
   { provider := w.provider, signer := w.signer, index := w.index })

/-- State-passing form of `build_sign_and_send_transaction` (no field
assignment in the method body). -/
def Wallet.build_sign_and_send_transaction_st (w : Wallet) (actions : List Action)
    (fee_payer : String) (message : Option String) (encrypt_message : Bool) :
    (Except WalletErr Json × List Call) × Wallet :=
  (w.build_sign_and_send_transaction actions fee_payer message encrypt_message,
   { provider := w.provider, signer := w.signer, index := w.index })

/-- The amount of the last entry with key `k` in an entry list: later
entries take priority.  This is the reference "last wins" semantics the
dict-building fold is compared against. -/
def lastAmount : List (String × Int) → String → Option Int
  | [], _ => none
  | (k', v) :: rest, k =>
    match lastAmount rest k with
    | some w => some w
    | none => if k' = k then some v else none

theorem dictGet_dictInsert (d : List (String × Int)) (k v k') :
    dictGet (dictInsert d k v) k' = if k = k' then some v else dictGet d k' := by
  induction d with
  | nil => simp [dictInsert, dictGet]
  | cons p rest ih =>
    obtain ⟨k₀, v₀⟩ := p
    by_cases h0 : k₀ = k
    · subst h0
      by_cases h : k₀ = k' <;> simp [dictInsert, dictGet, h]
    · by_cases h : k₀ = k'
      · subst h
        have : ¬ k = k₀ := fun hc => h0 hc.symm
        simp [dictInsert, dictGet, h0, this]
      · simp [dictInsert, dictGet, h0, h, ih]

theorem dictGet_foldl (l : List (String × Int)) (d : List (String × Int)) (k : String) :
    dictGet (l.foldl (fun d kv => dictInsert d kv.1 kv.2) d) k =
      match lastAmount l k with
      | some w => some w
      | none => dictGet d k := by
  induction l generalizing d with
  | nil => simp [lastAmount]
  | cons p rest ih =>
    obtain ⟨k₀, v₀⟩ := p
    simp only [List.foldl_cons, ih (dictInsert d k₀ v₀), lastAmount]
    cases h : lastAmount rest k with
    | some w => simp
    | none =>
      simp only [dictGet_dictInsert]
      by_cases hk : k₀ = k <;> simp [hk]

theorem dictGet_buildDict (l : List (String × Int)) (k : String) :
    dictGet (buildDict l) k = lastAmount l k := by
  rw [buildDict, dictGet_foldl]
  cases h : lastAmount l k <;> simp [dictGet]

theorem lastAmount_none_iff (l : List (String × Int)) (k : String) :
    lastAmount l k = none ↔ k ∉ l.map Prod.fst := by
  induction l with
  | nil => simp [lastAmount]
  | cons p rest ih =>
    obtain ⟨k₀, v₀⟩ := p
    simp only [lastAmount, List.map_cons, List.mem_cons]
    cases h : lastAmount rest k with
    | some w =>
      have hk : k ∈ rest.map Prod.fst := by
        by_contra hc
        have := ih.mpr hc
        rw [h] at this
        exact Option.noConfusion this
      simp [hk]
    | none =>
      have ih' : k ∉ rest.map Prod.fst := ih.mp h
      by_cases hk : k₀ = k
      · simp [hk, ih']
      · have hk' : ¬ k = k₀ := fun hc => hk hc.symm
        simp [hk, hk', ih']

theorem dictGet_none_iff (l : List (String × Int)) (k : String) :
    dictGet l k = none ↔ k ∉ l.map Prod.fst := by
  induction l with
  | nil => simp [dictGet]
  | cons p rest ih =>
    obtain ⟨k₀, v₀⟩ := p
    by_cases h : k₀ = k
    · simp [dictGet, h]
    · have h' : ¬ k = k₀ := fun hc => h hc.symm
      simp [dictGet, h, h', ih]

theorem mem_of_dictGet_eq_some (l : List (String × Int)) (k : String) (v : Int)
    (h : dictGet l k = some v) : (k, v) ∈ l := by
  induction l with
  | nil => simp [dictGet] at h
  | cons p rest ih =>
    obtain ⟨k₀, v₀⟩ := p
    by_cases hk : k₀ = k
    · subst hk
      simp [dictGet] at h
      simp [h]
    · simp [dictGet, hk] at h
      exact List.mem_cons_of_mem _ (ih h)

theorem dictGet_eq_some_of_mem (l : List (String × Int)) (k : String) (v : Int)
    (hnd : (l.map Prod.fst).Nodup) (h : (k, v) ∈ l) : dictGet l k = some v := by
  induction l with
  | nil => simp at h
  | cons p rest ih =>
    obtain ⟨k₀, v₀⟩ := p
    simp only [List.map_cons, List.nodup_cons] at hnd
    rcases List.mem_cons.mp h with h | h
    · obtain ⟨hk, hv⟩ := Prod.mk.injEq .. ▸ h
      simp [dictGet, hk, hv]
    · have hk : k₀ ≠ k := by
        rintro rfl
        exact hnd.1 (List.mem_map_of_mem Prod.fst h)
      simp only [dictGet, if_neg hk]
      exact ih hnd.2 h


theorem dictGet_perm (l l' : List (String × Int)) (hnd : (l.map Prod.fst).Nodup)
    (hp : l'.Perm l) (k : String) : dictGet l' k = dictGet l k := by
  cases h : dictGet l k with
  | none =>
    rw [dictGet_none_iff] at h ⊢
    intro hc
    exact h (((hp.map Prod.fst).mem_iff).mp hc)
  | some v =>
    have hmem : (k, v) ∈ l' := hp.mem_iff.mpr (mem_of_dictGet_eq_some l k v h)
    have hnd' : (l'.map Prod.fst).Nodup := ((hp.map Prod.fst).nodup_iff).mpr hnd
    exact dictGet_eq_some_of_mem l' k v hnd' hmem

theorem dictInsert_of_not_mem (d : List (String × Int)) (k : String) (v : Int)
    (h : k ∉ d.map Prod.fst) : dictInsert d k v = d ++ [(k, v)] := by
  induction d with
  | nil => simp [dictInsert]
  | cons p rest ih =>
    obtain ⟨k₀, v₀⟩ := p
    simp only [List.map_cons, List.mem_cons] at h
    push_neg at h
    have hk : ¬ k₀ = k := fun hc => h.1 hc.symm
    simp [dictInsert, hk, ih h.2]

theorem foldl_dictInsert_fresh (l : List (String × Int)) :
    ∀ d : List (String × Int), (∀ a ∈ l.map Prod.fst, a ∉ d.map Prod.fst) →
      (l.map Prod.fst).Nodup →
      l.foldl (fun d kv => dictInsert d kv.1 kv.2) d = d ++ l := by
  induction l with
  | nil => simp
  | cons p rest ih =>
    obtain ⟨k, v⟩ := p
    intro d hfresh hnd
    simp only [List.map_cons, List.nodup_cons] at hnd
    have hk : k ∉ d.map Prod.fst := hfresh k (by simp)
    simp only [List.foldl_cons, dictInsert_of_not_mem d k v hk]
    rw [ih (d ++ [(k, v)])]
    · simp
    · intro a ha
      simp only [List.map_append, List.mem_append, List.map_cons, List.map_nil,
        List.mem_singleton]
      rintro (hc | hc)
      · exact hfresh a (by simp [ha]) hc
      · subst hc
        exact hnd.1 ha
    · exact hnd.2

theorem buildDict_eq_self (l : List (String × Int)) (hnd : (l.map Prod.fst).Nodup) :
    buildDict l = l := by
  rw [buildDict, foldl_dictInsert_fresh l [] (by simp) hnd]
  simp

theorem length_dictInsert (d : List (String × Int)) (k : String) (v : Int) :
    (dictInsert d k v).length =
      if k ∈ d.map Prod.fst then d.length else d.length + 1 := by
  induction d with
  | nil => simp [dictInsert]
  | cons p rest ih =>
    obtain ⟨k₀, v₀⟩ := p
    by_cases h : k₀ = k
    · simp [dictInsert, h]
    · have h' : ¬ k = k₀ := fun hc => h hc.symm
      simp only [dictInsert, if_neg h, List.length_cons, ih, List.map_cons,
        List.mem_cons, h', false_or]
      by_cases hm : k ∈ rest.map Prod.fst <;> simp [hm]

theorem mem_keys_buildDict (l : List (String × Int)) (k : String) :
    k ∈ (buildDict l).map Prod.fst ↔ k ∈ l.map Prod.fst := by
  rw [← not_iff_not, ← dictGet_none_iff, ← lastAmount_none_iff, dictGet_buildDict]

theorem buildDict_concat (l : List (String × Int)) (p : String × Int) :
    buildDict (l ++ [p]) = dictInsert (buildDict l) p.1 p.2 := by
  simp [buildDict, List.foldl_append]

theorem buildDict_length_le (l : List (String × Int)) :
    (buildDict l).length ≤ l.length := by
  induction l using List.reverseRecOn with
  | nil => simp [buildDict]
  | append_singleton l p ih =>
    rw [buildDict_concat, length_dictInsert]
    by_cases h : p.1 ∈ (buildDict l).map Prod.fst <;> simp [h] <;> omega

theorem buildDict_length_lt (l : List (String × Int))
    (hdup : ¬ (l.map Prod.fst).Nodup) : (buildDict l).length < l.length := by
  induction l using List.reverseRecOn with
  | nil => simp at hdup
  | append_singleton l p ih =>
    rw [buildDict_concat, length_dictInsert]
    by_cases h : p.1 ∈ (buildDict l).map Prod.fst
    · have := buildDict_length_le l
      simp only [if_pos h, List.length_append, List.length_singleton]
      omega
    · have hfresh : p.1 ∉ l.map Prod.fst := (mem_keys_buildDict l p.1).not.mp h
      have hnd : ¬ (l.map Prod.fst).Nodup := by
        intro hc
        apply hdup
        simp only [List.map_append, List.map_cons, List.map_nil]
        rw [List.nodup_append]
        exact ⟨hc, List.nodup_singleton _, by simpa [List.disjoint_singleton] using hfresh⟩
      have := ih hnd
      simp only [if_neg h, List.length_append, List.length_singleton]
      omega

theorem lastAmount_append (l₁ l₂ : List (String × Int)) (k : String) :
    lastAmount (l₁ ++ l₂) k =
      match lastAmount l₂ k with
      | some w => some w
      | none => lastAmount l₁ k := by
  induction l₁ with
  | nil => cases h : lastAmount l₂ k <;> simp [lastAmount, h]
  | cons p rest ih =>
    obtain ⟨k₀, v₀⟩ := p
    simp only [List.cons_append, lastAmount]
    rw [show rest.append l₂ = rest ++ l₂ from rfl, ih]
    cases h : lastAmount l₂ k <;> cases h' : lastAmount rest k <;> simp [h, h']

theorem parseTokenList_length (js : List Json) (l : List (String × Int))
    (h : parseTokenList js = some l) : l.length = js.length := by
  induction js generalizing l with
  | nil => simp [parseTokenList] at h; simp [← h]
  | cons j rest ih =>
    simp only [parseTokenList] at h
    cases hj : parseTokenEntry j with
    | none => rw [hj] at h; exact absurd h (by simp)
    | some p =>
      rw [hj] at h
      cases hr : parseTokenList rest with
      | none => rw [hr] at h; exact absurd h (by simp)
      | some ps =>
        rw [hr] at h
        simp only [Option.some.injEq] at h
        subst h
        simp [ih ps hr]

theorem submit_trace_of_build_success (w : Wallet) (actions : List Action)
    (fee_payer : String) (message : Option String) (encrypt_message : Bool)
    (bres btxn blob hsh : Json)
    (hErr : (w.provider.build_transaction actions fee_payer message).get? "error" = none)
    (hRes : (w.provider.build_transaction actions fee_payer message).get? "result" = some bres)
    (hTxn : bres.get? "transaction" = some btxn)
    (hBlob : btxn.get? "blob" = some blob)
    (hHash : btxn.get? "hashOfBlobToSign" = some hsh) :
    (w.build_sign_and_send_transaction actions fee_payer message encrypt_message).2 =
      [Call.buildTransaction actions fee_payer message,
       Call.sign hsh w.index, Call.publicKey w.index,
       Call.finalizeTransaction blob (w.signer.sign hsh w.index)
         (w.signer.public_key w.index) true] := by
  simp only [Wallet.build_sign_and_send_transaction, hErr, hRes, hTxn, hBlob, hHash,
    Option.isSome_none, Bool.false_eq_true, if_false]
  repeat' split
  all_goals rfl

/-- Claim C1: a build-phase envelope that carries an `'error'` key makes
`build_sign_and_send_transaction` fail with a `RemoteError` tagged with the
build phase, and in that case the Signer's sign operation and the ledger's
finalize operation are never invoked (the trace holds only the build
call). -/
theorem C1_build_error_fails_before_sign_and_finalize
    (w : Wallet) (actions : List Action) (fee_payer : String)
    (message : Option String) (encrypt_message : Bool)
    (h : ((w.provider.build_transaction actions fee_payer message).get? "error").isSome = true) :
    (w.build_sign_and_send_transaction actions fee_payer message encrypt_message).1 =
      .error (.remoteError .build (w.provider.build_transaction actions fee_payer message)) ∧
    (w.build_sign_and_send_transaction actions fee_payer message encrypt_message).2 =
      [Call.buildTransaction actions fee_payer message] ∧
    ∀ c ∈ (w.build_sign_and_send_transaction actions fee_payer message encrypt_message).2,
      c.isSign = false ∧ c.isFinalize = false := by
  refine ⟨?_, ?_, ?_⟩ <;>
    simp [Wallet.build_sign_and_send_transaction, h, Call.isSign, Call.isFinalize]

/-- Claim C2: on a finalize success payload, a top-level `txID` under
`result` is returned; failing that, a `txID` nested inside
`result.transaction` is returned; the top-level shape takes priority (no
condition on the nested shape is needed in the first case); and when
neither shape yields an identifier the call fails with a
`MalformedResponse`. -/
theorem C2_finalize_result_extraction
    (w : Wallet) (actions : List Action) (fee_payer : String)
    (message : Option String) (encrypt_message : Bool)
    (bres btxn blob hsh fres : Json)
    (hErr : (w.provider.build_transaction actions fee_payer message).get? "error" = none)
    (hRes : (w.provider.build_transaction actions fee_payer message).get? "result" = some bres)
    (hTxn : bres.get? "transaction" = some btxn)
    (hBlob : btxn.get? "blob" = some blob)
    (hHash : btxn.get? "hashOfBlobToSign" = some hsh)
    (hFerr : (w.provider.finalize_transaction blob (w.signer.sign hsh w.index)
      (w.signer.public_key w.index) true).get? "error" = none)
    (hFres : (w.provider.finalize_transaction blob (w.signer.sign hsh w.index)
      (w.signer.public_key w.index) true).get? "result" = some fres) :
    (∀ txID, fres.get? "txID" = some txID →
      (w.build_sign_and_send_transaction actions fee_payer message encrypt_message).1 =
        .ok txID) ∧
    (fres.get? "txID" = none → ∀ txID,
      (fres.get? "transaction").bind (fun t => t.get? "txID") = some txID →
      (w.build_sign_and_send_transaction actions fee_payer message encrypt_message).1 =
        .ok txID) ∧
    (fres.get? "txID" = none →
      (fres.get? "transaction").bind (fun t => t.get? "txID") = none →
      ∃ k, (w.build_sign_and_send_transaction actions fee_payer message encrypt_message).1 =
        .error (.malformedResponse .finalize k)) := by
  refine ⟨?_, ?_, ?_⟩
  · intro txID hTop
    simp [Wallet.build_sign_and_send_transaction, hErr, hRes, hTxn, hBlob, hHash,
      hFerr, hFres, hTop]
  · intro hTop txID hNested
    cases hT : fres.get? "transaction" with
    | none =>
      rw [hT] at hNested
      exact absurd hNested (by simp [Option.bind])
    | some ftxn =>
      rw [hT] at hNested
      rw [show (some ftxn).bind (fun t => t.get? "txID") = ftxn.get? "txID" from rfl] at hNested
      simp [Wallet.build_sign_and_send_transaction, hErr, hRes, hTxn, hBlob, hHash,
        hFerr, hFres, hTop, hT, hNested]
  · intro hTop hNested
    cases hT : fres.get? "transaction" with
    | none =>
      exact ⟨"transaction", by
        simp [Wallet.build_sign_and_send_transaction, hErr, hRes, hTxn, hBlob, hHash,
          hFerr, hFres, hTop, hT]⟩
    | some ftxn =>
      rw [hT] at hNested
      rw [show (some ftxn).bind (fun t => t.get? "txID") = ftxn.get? "txID" from rfl] at hNested
      exact ⟨"txID", by
        simp [Wallet.build_sign_and_send_transaction, hErr, hRes, hTxn, hBlob, hHash,
          hFerr, hFres, hTop, hT, hNested]⟩

/-- Claim C3: after a successful build phase, a finalize envelope carrying
an `'error'` key makes the call fail with a `RemoteError` tagged with the
finalize phase, a tag distinct from the build phase's, so callers can tell
which phase failed. -/
theorem C3_finalize_error_distinguished
    (w : Wallet) (actions : List Action) (fee_payer : String)
    (message : Option String) (encrypt_message : Bool)
    (bres btxn blob hsh errPayload : Json)
    (hErr : (w.provider.build_transaction actions fee_payer message).get? "error" = none)
    (hRes : (w.provider.build_transaction actions fee_payer message).get? "result" = some bres)
    (hTxn : bres.get? "transaction" = some btxn)
    (hBlob : btxn.get? "blob" = some blob)
    (hHash : btxn.get? "hashOfBlobToSign" = some hsh)
    (hFerr : (w.provider.finalize_transaction blob (w.signer.sign hsh w.index)
      (w.signer.public_key w.index) true).get? "error" = some errPayload) :
    (w.build_sign_and_send_transaction actions fee_payer message encrypt_message).1 =
      .error (.remoteError .finalize errPayload) ∧
    Phase.finalize ≠ Phase.build := by
  refine ⟨?_, by decide⟩
  simp [Wallet.build_sign_and_send_transaction, hErr, hRes, hTxn, hBlob, hHash, hFerr]

/-- Claim C4: after a successful build phase, the digest handed to the
Signer's sign operation is exactly the `hashOfBlobToSign` value extracted
from the build response (never a locally recomputed hash), and the sign
call uses the wallet's configured account index; moreover every sign call
in the trace uses exactly that digest and index. -/
theorem C4_sign_uses_extracted_digest
    (w : Wallet) (actions : List Action) (fee_payer : String)
    (message : Option String) (encrypt_message : Bool)
    (bres btxn blob hsh : Json)
    (hErr : (w.provider.build_transaction actions fee_payer message).get? "error" = none)
    (hRes : (w.provider.build_transaction actions fee_payer message).get? "result" = some bres)
    (hTxn : bres.get? "transaction" = some btxn)
    (hBlob : btxn.get? "blob" = some blob)
    (hHash : btxn.get? "hashOfBlobToSign" = some hsh) :
    Call.sign hsh w.index ∈
      (w.build_sign_and_send_transaction actions fee_payer message encrypt_message).2 ∧
    ∀ d i, Call.sign d i ∈
      (w.build_sign_and_send_transaction actions fee_payer message encrypt_message).2 →
      d = hsh ∧ i = w.index := by
  rw [submit_trace_of_build_success w actions fee_payer message encrypt_message
    bres btxn blob hsh hErr hRes hTxn hBlob hHash]
  constructor
  · simp
  · intro d i hmem
    simp only [List.mem_cons, List.mem_singleton] at hmem
    rcases hmem with h | h | h | h
    · exact absurd h (by simp)
    · injection h with h1 h2
      exact ⟨h1, h2⟩
    · exact absurd h (by simp)
    · exact absurd h (by simp)

/-- Claim C5: a build-phase success envelope (no `'error'` key) from which
the blob or the signing digest cannot be extracted makes the call fail with
a `MalformedResponse`. -/
theorem C5_build_missing_fields_malformed
    (w : Wallet) (actions : List Action) (fee_payer : String)
    (message : Option String) (encrypt_message : Bool)
    (hErr : (w.provider.build_transaction actions fee_payer message).get? "error" = none)
    (h : (w.provider.build_transaction actions fee_payer message).getPath
          ["result", "transaction", "blob"] = none ∨
         (w.provider.build_transaction actions fee_payer message).getPath
          ["result", "transaction", "hashOfBlobToSign"] = none) :
    ∃ k, (w.build_sign_and_send_transaction actions fee_payer message encrypt_message).1 =
      .error (.malformedResponse .build k) := by
  cases hR : (w.provider.build_transaction actions fee_payer message).get? "result" with
  | none =>
    exact ⟨"result", by simp [Wallet.build_sign_and_send_transaction, hErr, hR]⟩
  | some bres =>
    cases hT : bres.get? "transaction" with
    | none =>
      exact ⟨"transaction", by simp [Wallet.build_sign_and_send_transaction, hErr, hR, hT]⟩
    | some btxn =>
      cases hB : btxn.get? "blob" with
      | none =>
        exact ⟨"blob", by simp [Wallet.build_sign_and_send_transaction, hErr, hR, hT, hB]⟩
      | some blob =>
        rcases h with h | h
        · rw [show (["result", "transaction", "blob"] : List String) =
            "result" :: "transaction" :: "blob" :: [] from rfl] at h
          simp only [Json.getPath, hR, hT, hB] at h
          exact absurd h (by simp)
        · rw [show (["result", "transaction", "hashOfBlobToSign"] : List String) =
            "result" :: "transaction" :: "hashOfBlobToSign" :: [] from rfl] at h
          simp only [Json.getPath, hR, hT] at h
          cases hH : btxn.get? "hashOfBlobToSign" with
          | some hsh => rw [hH] at h; exact absurd h (by simp)
          | none =>
            exact ⟨"hashOfBlobToSign", by
              simp [Wallet.build_sign_and_send_transaction, hErr, hR, hT, hB, hH]⟩

theorem submit_trace_head (w : Wallet) (actions : List Action) (fee_payer : String)
    (message : Option String) (encrypt_message : Bool) :
    ∃ rest, (w.build_sign_and_send_transaction actions fee_payer message encrypt_message).2 =
      Call.buildTransaction actions fee_payer message :: rest := by
  simp only [Wallet.build_sign_and_send_transaction]
  repeat' split
  all_goals exact ⟨_, rfl⟩

/-- Claim C6 (code-bug evidence): the build-transaction operation receives
the action sequence, the fee payer and the optional message unmodified —
the trace's first call is exactly `buildTransaction actions fee_payer
message` — but the `encrypt_message` flag is NOT passed through to the
remote service: it is accepted and then ignored, so the whole observable
behavior of `build_sign_and_send_transaction` is identical for every value
of the flag. -/
theorem C6_build_args_passed_encrypt_flag_dropped
    (w : Wallet) (actions : List Action) (fee_payer : String) (message : Option String) :
    (∀ e₁ e₂ : Bool,
      w.build_sign_and_send_transaction actions fee_payer message e₁ =
        w.build_sign_and_send_transaction actions fee_payer message e₂) ∧
    (∀ e : Bool, ∃ rest,
      (w.build_sign_and_send_transaction actions fee_payer message e).2 =
        Call.buildTransaction actions fee_payer message :: rest) := by
  refine ⟨fun e₁ e₂ => rfl, fun e => submit_trace_head w actions fee_payer message e⟩

/-- Claim C7: when the balance envelope has no error key and its
`tokenBalances` entries all extract and have pairwise-distinct RRIs,
`get_balances` returns a mapping with exactly one binding per entry (size
`N`), each RRI bound to that entry's amount converted to an integer, and
the mapping's lookups are invariant under any reordering of the entry
list; when the envelope carries an error key, `get_balances` fails with a
`RemoteError` instead. -/
theorem C7_get_balances_mapping
    (w : Wallet) (res : Json) (entries : List Json) (parsed : List (String × Int))
    (hRes : (w.provider.get_balances (w.signer.wallet_address w.index
      (decide (w.provider.network = Network.mainnet)))).get? "result" = some res)
    (hTB : res.get? "tokenBalances" = some (.arr entries))
    (hParse : parseTokenList entries = some parsed)
    (hNodup : (parsed.map Prod.fst).Nodup) :
    (((w.provider.get_balances (w.signer.wallet_address w.index
        (decide (w.provider.network = Network.mainnet)))).get? "error").isSome = true →
      (w.get_balances).1 = .error (.remoteError .balances
        (w.provider.get_balances (w.signer.wallet_address w.index
          (decide (w.provider.network = Network.mainnet)))))) ∧
    ((w.provider.get_balances (w.signer.wallet_address w.index
        (decide (w.provider.network = Network.mainnet)))).get? "error" = none →
      (w.get_balances).1 = .ok (buildDict parsed) ∧
      (buildDict parsed).length = entries.length ∧
      (∀ p ∈ parsed, dictGet (buildDict parsed) p.1 = some p.2) ∧
      (∀ l₂, l₂.Perm parsed → ∀ k, dictGet (buildDict l₂) k = dictGet (buildDict parsed) k)) := by
  constructor
  · intro h
    simp [Wallet.get_balances, h]
  · intro hNoErr
    refine ⟨?_, ?_, ?_, ?_⟩
    · simp [Wallet.get_balances, hNoErr, hRes, hTB, hParse]
    · rw [buildDict_eq_self parsed hNodup, parseTokenList_length entries parsed hParse]
    · intro p hp
      rw [buildDict_eq_self parsed hNodup]
      exact dictGet_eq_some_of_mem parsed p.1 p.2 hNodup (by simpa using hp)
    · intro l₂ hperm k
      have hNodup₂ : (l₂.map Prod.fst).Nodup :=
        ((hperm.map Prod.fst).nodup_iff).mpr hNodup
      rw [buildDict_eq_self parsed hNodup, buildDict_eq_self l₂ hNodup₂]
      exact dictGet_perm parsed l₂ hNodup hperm k

/-- Claim C8: `get_balance_of_token` returns `0` when the requested RRI is
absent from the mapping produced by `get_balances` (absence is not an
error), and the exact integer amount bound to it otherwise. -/
theorem C8_get_balance_of_token_zero_or_exact
    (w : Wallet) (token_rri : String) (d : List (String × Int))
    (hOk : (w.get_balances).1 = .ok d) :
    (dictGet d token_rri = none → (w.get_balance_of_token token_rri).1 = .ok 0) ∧
    (∀ v, dictGet d token_rri = some v →
      (w.get_balance_of_token token_rri).1 = .ok v) := by
  cases hw : w.get_balances with
  | mk r calls =>
    rw [hw] at hOk
    have hr : r = .ok d := hOk
    subst hr
    constructor
    · intro h
      simp [Wallet.get_balance_of_token, hw, h]
    · intro v h
      simp [Wallet.get_balance_of_token, hw, h]

/-- Claim C9: the wallet's provider, signer and account index are fixed at
construction: in the state-passing form of each public operation the
post-state's three configuration fields equal the receiver's, and the
embedded public interface contains no operation producing a wallet with
different fields. -/
theorem C9_configuration_immutable
    (w : Wallet) (actions : List Action) (fee_payer : String)
    (message : Option String) (encrypt_message : Bool) (token_rri : String) :
    ((w.get_balances_st).2.provider = w.provider ∧
     (w.get_balances_st).2.signer = w.signer ∧
     (w.get_balances_st).2.index = w.index) ∧
    ((w.get_balance_of_token_st token_rri).2.provider = w.provider ∧
     (w.get_balance_of_token_st token_rri).2.signer = w.signer ∧
     (w.get_balance_of_token_st token_rri).2.index = w.index) ∧
    ((w.build_sign_and_send_transaction_st actions fee_payer message encrypt_message).2.provider
        = w.provider ∧
     (w.build_sign_and_send_transaction_st actions fee_payer message encrypt_message).2.signer
        = w.signer ∧
     (w.build_sign_and_send_transaction_st actions fee_payer message encrypt_message).2.index
        = w.index) :=
  ⟨⟨rfl, rfl, rfl⟩, ⟨rfl, rfl, rfl⟩, ⟨rfl, rfl, rfl⟩⟩

/-- Claim C10: on a success envelope whose entries all extract, duplicate
RRIs are resolved by letting later entries overwrite earlier ones: the
mapping binds a duplicated RRI to the amount of the last entry carrying it,
the mapping is never larger than the entry list, and it is strictly
smaller whenever the RRIs are not pairwise distinct. -/
theorem C10_duplicate_rris_last_entry_wins
    (w : Wallet) (res : Json) (entries : List Json) (parsed : List (String × Int))
    (hErr : (w.provider.get_balances (w.signer.wallet_address w.index
      (decide (w.provider.network = Network.mainnet)))).get? "error" = none)
    (hRes : (w.provider.get_balances (w.signer.wallet_address w.index
      (decide (w.provider.network = Network.mainnet)))).get? "result" = some res)
    (hTB : res.get? "tokenBalances" = some (.arr entries))
    (hParse : parseTokenList entries = some parsed) :
    (w.get_balances).1 = .ok (buildDict parsed) ∧
    (∀ k a l₁ l₂, parsed = l₁ ++ (k, a) :: l₂ → k ∉ l₂.map Prod.fst →
      dictGet (buildDict parsed) k = some a) ∧
    (buildDict parsed).length ≤ entries.length ∧
    (¬ (parsed.map Prod.fst).Nodup → (buildDict parsed).length < entries.length) := by
  refine ⟨?_, ?_, ?_, ?_⟩
  · simp [Wallet.get_balances, hErr, hRes, hTB, hParse]
  · intro k a l₁ l₂ hsplit hnot
    have h2 : lastAmount ((k, a) :: l₂) k = some a := by
      have hnone : lastAmount l₂ k = none := (lastAmount_none_iff l₂ k).mpr hnot
      simp [lastAmount, hnone]
    rw [dictGet_buildDict, hsplit, lastAmount_append, h2]
  · rw [← parseTokenList_length entries parsed hParse]
    exact buildDict_length_le parsed
  · intro hdup
    rw [← parseTokenList_length entries parsed hParse]
    exact buildDict_length_lt parsed hdup

/-- A concrete signer used by the closed witness statements. -/
def demoSigner : Signer where
  sign := fun _ _ => "sig000"
  public_key := fun _ => "pubkey0"
  wallet_address := fun _ _ => "addr0"

/-- Build envelope carrying an error payload. -/
def buildErrorResp : Json :=
  .obj [("error", .obj [("message", .str "insufficient funds")])]

/-- Transaction object of a successful build response. -/
def demoBtxn : Json :=
  .obj [("blob", .str "ab12"), ("hashOfBlobToSign", .str "deadbeef")]

/-- Result object of a successful build response. -/
def demoBres : Json := .obj [("transaction", demoBtxn)]

/-- Successful build envelope. -/
def buildOkResp : Json := .obj [("result", demoBres)]

/-- Build success envelope whose transaction object lacks the blob. -/
def buildMissingBlobResp : Json :=
  .obj [("result", .obj [("transaction", .obj
    [("hashOfBlobToSign", .str "deadbeef")])])]

/-- Finalize result carrying both a top-level and a nested identifier. -/
def demoFres : Json :=
  .obj [("txID", .str "TX1"), ("transaction", .obj [("txID", .str "TX2")])]

/-- Successful finalize envelope with both identifier shapes. -/
def finalizeBothShapesResp : Json := .obj [("result", demoFres)]

/-- Finalize envelope carrying an error payload. -/
def finalizeErrorResp : Json :=
  .obj [("error", .obj [("message", .str "bad signature")])]

/-- Two token-balance entries with distinct RRIs, one string amount and
one numeric amount. -/
def demoEntries : List Json :=
  [.obj [("rri", .str "xrd"), ("amount", .str "100")],
   .obj [("rri", .str "gold"), ("amount", .num 7)]]

/-- Result object of a balance success envelope. -/
def demoBalRes : Json := .obj [("tokenBalances", .arr demoEntries)]

/-- Balance success envelope with two distinct RRIs. -/
def balancesOkResp : Json := .obj [("result", demoBalRes)]

/-- The extracted entries of `demoEntries`. -/
def demoParsed : List (String × Int) := [("xrd", 100), ("gold", 7)]

/-- Two token-balance entries sharing one RRI. -/
def dupEntries : List Json :=
  [.obj [("rri", .str "xrd"), ("amount", .num 1)],
   .obj [("rri", .str "xrd"), ("amount", .num 2)]]

/-- Result object of a balance envelope with a duplicated RRI. -/
def dupBalRes : Json := .obj [("tokenBalances", .arr dupEntries)]

/-- Balance success envelope with a duplicated RRI. -/
def balancesDupResp : Json := .obj [("result", dupBalRes)]

/-- Extracted entries of `dupEntries`. -/
def dupParsed : List (String × Int) := [("xrd", 1), ("xrd", 2)]

/-- Wallet whose provider reports an error at the build phase. -/
def walletBuildError : Wallet :=
  ⟨⟨.mainnet, fun _ => balancesOkResp, fun _ _ _ => buildErrorResp,
    fun _ _ _ _ => finalizeBothShapesResp⟩, demoSigner, 0⟩

/-- Wallet whose provider succeeds at every phase. -/
def walletHappy : Wallet :=
  ⟨⟨.mainnet, fun _ => balancesOkResp, fun _ _ _ => buildOkResp,
    fun _ _ _ _ => finalizeBothShapesResp⟩, demoSigner, 0⟩

/-- Wallet whose provider reports an error at the finalize phase. -/
def walletFinalizeError : Wallet :=
  ⟨⟨.mainnet, fun _ => balancesOkResp, fun _ _ _ => buildOkResp,
    fun _ _ _ _ => finalizeErrorResp⟩, demoSigner, 0⟩

/-- Wallet whose provider returns a build success envelope without a
blob. -/
def walletMissingBlob : Wallet :=
  ⟨⟨.mainnet, fun _ => balancesOkResp, fun _ _ _ => buildMissingBlobResp,
    fun _ _ _ _ => finalizeBothShapesResp⟩, demoSigner, 0⟩

/-- Wallet whose provider returns balances with a duplicated RRI. -/
def walletDupBalances : Wallet :=
  ⟨⟨.mainnet, fun _ => balancesDupResp, fun _ _ _ => buildOkResp,
    fun _ _ _ _ => finalizeBothShapesResp⟩, demoSigner, 0⟩

theorem C1_build_error_fails_before_sign_and_finalize_witness :
    (walletBuildError.build_sign_and_send_transaction [] "addr" none false).1 =
      .error (.remoteError .build
        (walletBuildError.provider.build_transaction [] "addr" none)) ∧
    (walletBuildError.build_sign_and_send_transaction [] "addr" none false).2 =
      [Call.buildTransaction [] "addr" none] ∧
    ∀ c ∈ (walletBuildError.build_sign_and_send_transaction [] "addr" none false).2,
      c.isSign = false ∧ c.isFinalize = false :=
  C1_build_error_fails_before_sign_and_finalize
    walletBuildError [] "addr" none false (by rfl)

theorem C2_finalize_result_extraction_witness :
    (∀ txID, demoFres.get? "txID" = some txID →
      (walletHappy.build_sign_and_send_transaction [] "addr" none false).1 =
        .ok txID) ∧
    (demoFres.get? "txID" = none → ∀ txID,
      (demoFres.get? "transaction").bind (fun t => t.get? "txID") = some txID →
      (walletHappy.build_sign_and_send_transaction [] "addr" none false).1 =
        .ok txID) ∧
    (demoFres.get? "txID" = none →
      (demoFres.get? "transaction").bind (fun t => t.get? "txID") = none →
      ∃ k, (walletHappy.build_sign_and_send_transaction [] "addr" none false).1 =
        .error (.malformedResponse .finalize k)) :=
  C2_finalize_result_extraction walletHappy [] "addr" none false
    demoBres demoBtxn (.str "ab12") (.str "deadbeef") demoFres
    (by rfl) (by rfl) (by rfl) (by rfl) (by rfl) (by rfl) (by rfl)

theorem C3_finalize_error_distinguished_witness :
    (walletFinalizeError.build_sign_and_send_transaction [] "addr" none false).1 =
      .error (.remoteError .finalize (.obj [("message", .str "bad signature")])) ∧
    Phase.finalize ≠ Phase.build :=
  C3_finalize_error_distinguished walletFinalizeError [] "addr" none false
    demoBres demoBtxn (.str "ab12") (.str "deadbeef")
    (.obj [("message", .str "bad signature")])
    (by rfl) (by rfl) (by rfl) (by rfl) (by rfl) (by rfl)

theorem C4_sign_uses_extracted_digest_witness :
    Call.sign (.str "deadbeef") walletHappy.index ∈
      (walletHappy.build_sign_and_send_transaction [] "addr" none false).2 ∧
    ∀ d i, Call.sign d i ∈
      (walletHappy.build_sign_and_send_transaction [] "addr" none false).2 →
      d = .str "deadbeef" ∧ i = walletHappy.index :=
  C4_sign_uses_extracted_digest walletHappy [] "addr" none false
    demoBres demoBtxn (.str "ab12") (.str "deadbeef")
    (by rfl) (by rfl) (by rfl) (by rfl) (by rfl)

theorem C5_build_missing_fields_malformed_witness :
    ∃ k, (walletMissingBlob.build_sign_and_send_transaction [] "addr" none false).1 =
      .error (.malformedResponse .build k) :=
  C5_build_missing_fields_malformed walletMissingBlob [] "addr" none false
    (by rfl) (Or.inl (by rfl))

theorem C7_get_balances_mapping_witness :
    (((walletHappy.provider.get_balances (walletHappy.signer.wallet_address
        walletHappy.index (decide (walletHappy.provider.network =
        Network.mainnet)))).get? "error").isSome = true →
      (walletHappy.get_balances).1 = .error (.remoteError .balances
        (walletHappy.provider.get_balances (walletHappy.signer.wallet_address
          walletHappy.index (decide (walletHappy.provider.network =
          Network.mainnet)))))) ∧
    ((walletHappy.provider.get_balances (walletHappy.signer.wallet_address
        walletHappy.index (decide (walletHappy.provider.network =
        Network.mainnet)))).get? "error" = none →
      (walletHappy.get_balances).1 = .ok (buildDict demoParsed) ∧
      (buildDict demoParsed).length = demoEntries.length ∧
      (∀ p ∈ demoParsed, dictGet (buildDict demoParsed) p.1 = some p.2) ∧
      (∀ l₂, l₂.Perm demoParsed → ∀ k,
        dictGet (buildDict l₂) k = dictGet (buildDict demoParsed) k)) :=
  C7_get_balances_mapping walletHappy demoBalRes demoEntries demoParsed
    (by rfl) (by rfl) (by rfl) (by decide)

theorem C8_get_balance_of_token_zero_or_exact_witness :
    (dictGet demoParsed "missing" = none →
      (walletHappy.get_balance_of_token "missing").1 = .ok 0) ∧
    (∀ v, dictGet demoParsed "missing" = some v →
      (walletHappy.get_balance_of_token "missing").1 = .ok v) :=
  C8_get_balance_of_token_zero_or_exact walletHappy "missing" demoParsed (by rfl)

theorem C10_duplicate_rris_last_entry_wins_witness :
    (walletDupBalances.get_balances).1 = .ok (buildDict dupParsed) ∧
    (∀ k a l₁ l₂, dupParsed = l₁ ++ (k, a) :: l₂ → k ∉ l₂.map Prod.fst →
      dictGet (buildDict dupParsed) k = some a) ∧
    (buildDict dupParsed).length ≤ dupEntries.length ∧
    (¬ (dupParsed.map Prod.fst).Nodup →
      (buildDict dupParsed).length < dupEntries.length) :=
  C10_duplicate_rris_last_entry_wins walletDupBalances dupBalRes dupEntries dupParsed
    (by rfl) (by rfl) (by rfl) (by rfl)

end Radix
